import Mathlib

/-!
Verification development for the `energysys` power-scheduling repository.

The Python source is shallowly embedded over exact rationals (`ℚ`):

* `ThermalUnit` and its cost functions embed `src/systems/thermal.py`;
* `System` / `UCSystem` embed the name-keyed unit dictionary of
  `src/systems/core.py` (a Python `dict` is represented by its list of
  values in key-insertion order, with in-place replacement on key reuse);
* `Line` / `Network` embed the transmission topology of `src/systems/core.py`;
* `LambdaIteration.solve` embeds the bisection dispatch solver of
  `src/solvers/uc.py`;
* `PyModel` together with the `BaseModel`/`DCModel`/`SCDCModel` builders is a
  deep embedding of the Pyomo model constructed in
  `src/solvers/unit_commitment.py`: each Pyomo component (variable/constraint
  family) is an association-list entry keyed by its attribute name, and
  assigning a component to an attribute name that is already bound replaces
  the previous component, exactly as Pyomo's implicit-replacement semantics.
-/

/-- A thermal generating unit (`ThermalUnit.__init__` in
`src/systems/thermal.py`).  The quadratic fuel curve `input_output` is stored
as the three coefficients `c0, c1, c2` (the source keeps them as
`self.curve[0..2]`).  The source defaults `min_power`/`max_power` to
`-inf`/`inf`; infinities are not rationals, so the embedding requires the
bounds to be supplied (every claim does supply them). -/
structure ThermalUnit where
  name : String
  c0 : ℚ
  c1 : ℚ
  c2 : ℚ
  fuel_cost : ℚ
  min_power : ℚ
  max_power : ℚ
  start_up_cost : ℚ
  ramp_up : Option ℚ
  ramp_down : Option ℚ
  min_uptime : Option ℕ
  min_rest : Option ℕ
deriving DecidableEq, Repr

instance : Inhabited ThermalUnit :=
  ⟨⟨"", 0, 0, 0, 0, 0, 0, 0, none, none, none, none⟩⟩

namespace ThermalUnit

/-- Embeds `input_output(P) = curve[0] + curve[1]*P + curve[2]*P*P`. -/
def input_output (u : ThermalUnit) (P : ℚ) : ℚ :=
  u.c0 + u.c1 * P + u.c2 * P * P

/-- Embeds `marginal_heatrate(P) = curve[1] + curve[2]*P*2`. -/
def marginal_heatrate (u : ThermalUnit) (P : ℚ) : ℚ :=
  u.c1 + u.c2 * P * 2

/-- Embeds `marginal_cost(P) = marginal_heatrate(P) * fuel_cost`. -/
def marginal_cost (u : ThermalUnit) (P : ℚ) : ℚ :=
  u.marginal_heatrate P * u.fuel_cost

/-- Embeds `inv_marginal_cost(x) = (x / fuel_cost - curve[1]) / 2 / (curve[2] + 1e-7)`.
The `1e-7` epsilon guard of the source is kept exactly. -/
def inv_marginal_cost (u : ThermalUnit) (x : ℚ) : ℚ :=
  (x / u.fuel_cost - u.c1) / 2 / (u.c2 + 1 / 10000000)

end ThermalUnit

/-- Python `dict` assignment `d[u.name] = u` on an association list whose keys
(unit names) are pairwise distinct: replace the entry holding the same name in
place, otherwise append at the end.  This is exactly how a Python dict built
by `{u.name: u for u in units}` behaves (insertion order, later value wins). -/
def dictInsert : List ThermalUnit → ThermalUnit → List ThermalUnit
  | [], u => [u]
  | v :: m, u => if v.name = u.name then u :: m else v :: dictInsert m u

/-- Embeds `System.__init__`: `self.units = {u.name: u for u in units}`
(`src/systems/core.py`).  The dict is represented by its value list in
key-insertion order. -/
structure System where
  units : List ThermalUnit
deriving DecidableEq, Repr

/-- Build a `System` from a unit sequence the way the dict comprehension does. -/
def System.ofUnits (us : List ThermalUnit) : System :=
  ⟨us.foldl dictInsert []⟩

/-- Embeds `System.__getitem__(key)`: name lookup.  The source raises `KeyError` on a
missing name; the builders below only ever look up names of stored units, and
the embedding totalizes the miss with the default unit. -/
def System.getItem (s : System) (key : String) : ThermalUnit :=
  (s.units.find? (fun u => u.name = key)).getD default

/-- Embeds `UCSystem(units, reserve_req=0)` (`src/systems/core.py`). -/
structure UCSystem where
  units : List ThermalUnit
  reserve_req : ℚ
deriving DecidableEq, Repr

/-- Build a `UCSystem` from a unit sequence (same dict comprehension). -/
def UCSystem.ofUnits (us : List ThermalUnit) (reserve_req : ℚ) : UCSystem :=
  ⟨us.foldl dictInsert [], reserve_req⟩

/-- Name lookup on a `UCSystem` (`System.__getitem__`). -/
def UCSystem.getItem (s : UCSystem) (key : String) : ThermalUnit :=
  (s.units.find? (fun u => u.name = key)).getD default

/-- A transmission line (`Line.__init__` in `src/systems/core.py`).
`power_lim=None` means unconstrained. -/
structure Line where
  arc : String × String
  power_lim : Option ℚ
  Z : ℚ
deriving DecidableEq, Repr

/-- Python dict assignment `d[l.tuple()] = l` for the line dictionary. -/
def lineInsert : List ((String × String) × Line) → Line →
    List ((String × String) × Line)
  | [], l => [(l.arc, l)]
  | (k, v) :: m, l => if k = l.arc then (l.arc, l) :: m else (k, v) :: lineInsert m l

/-- Association-list lookup with `String`-tuple keys (Python `dict.get`). -/
def arcFind : List ((String × String) × Line) → String × String → Option Line
  | [], _ => none
  | (k, v) :: m, a => if k = a then some v else arcFind m a

/-- Embeds `Network.__init__` (`src/systems/core.py`): `self.lines` is the dict
`{l.tuple(): l for l in lines}` (represented as an association list),
`self.links` the set of `(bus, unit_name)` pairs.  `buses` is derived below. -/
structure Network where
  lines : List ((String × String) × Line)
  system : UCSystem
  links : List (String × String)
deriving DecidableEq, Repr

/-- Build a `Network` from a line sequence the way the constructor does. -/
def Network.ofLines (lines : List Line) (system : UCSystem)
    (links : List (String × String)) : Network :=
  ⟨lines.foldl lineInsert [], system, links⟩

/-- Lexicographic code-point order on character lists (Python string `<`). -/
def charListLt : List Char → List Char → Bool
  | [], [] => false
  | [], _ :: _ => true
  | _ :: _, [] => false
  | a :: as, b :: bs => if a < b then true else if b < a then false else charListLt as bs

/-- Python `<` on strings: lexicographic comparison of their code points. -/
def strLtB (a b : String) : Bool := charListLt a.data b.data

/-- Sorted insertion of a string (helper for embedding Python `sorted`). -/
def insertSorted (s : String) : List String → List String
  | [] => [s]
  | b :: rest => if strLtB s b then s :: b :: rest else b :: insertSorted s rest

/-- Ascending insertion sort on strings (the embedding of Python `sorted`,
which produces the ascending order of the distinct elements). -/
def sortStrings (l : List String) : List String := l.foldr insertSorted []

/-- Embeds `self.buses = sorted(list(reduce(union, [set(l.arc) for l in lines])))`:
the sorted list of distinct arc endpoints. -/
def Network.buses (n : Network) : List String :=
  sortStrings ((n.lines.map (fun p => [p.1.1, p.1.2])).flatten.dedup)

/-- Embeds `Network.link(bus, unit)` tests `(bus, unit) in self.links`. -/
def Network.link (n : Network) (bus : String) (unit : String) : Bool :=
  (bus, unit) ∈ n.links

/-- Embeds `Network.power_lim(a, b)`: `self.lines.get((a,b), self.lines.get((b,a),
None))`, then `None` for a missing line else the line's `power_lim`. -/
def Network.power_lim (n : Network) (a b : String) : Option ℚ :=
  match (match arcFind n.lines (a, b) with
         | some l => some l
         | none => arcFind n.lines (b, a)) with
  | none => none
  | some line => line.power_lim

/-- Embeds `Network.Z(a, b)`: same two-orientation lookup, `1` for a missing line
else the line's `Z`. -/
def Network.Z (n : Network) (a b : String) : ℚ :=
  match (match arcFind n.lines (a, b) with
         | some l => some l
         | none => arcFind n.lines (b, a)) with
  | none => 1
  | some line => line.Z

/-! ## Lambda iteration (`src/solvers/uc.py`, class `LambdaIteration`)

The solver is a plain loop mutating `lambda_value`, `Delta`, `powers`,
`eps` and the history lists.  It is embedded as a fuel recursion carrying the
mutable state; `SolveRes` packages the returned `powers` together with the
retained `self.history` (as a list of `(lambda, err)` pairs), the final
`self.lambda_value`, the number of loop iterations executed, and which of the
three exit paths ended the loop (`break` on `abs(eps) < 1e-3`, `break` on the
saturation norm test, or exhaustion of `range(MAX_ITER)`).

The loop *body* iterates `system` itself (`for u in system`), which goes
through `System.__iter__` and yields the stored `ThermalUnit` values; the
loop body is embedded by `lambdaLoop` below.  The `lambda_min`/`lambda_max`
computation that precedes the loop, however, iterates `system.units` — the
name-keyed dict, and iterating a Python dict yields its *keys*, i.e. the
unit name strings — and immediately evaluates `unit.marginal_cost(...)` on
such a key.  A `str` has no `marginal_cost` (or `min_power`) attribute, so
this raises `AttributeError` on the first generator element of every
nonempty system, before the loop ever starts; on an empty system, `min()`
of an empty generator raises `ValueError` instead.  `solve` embeds both
raised exceptions as `none`, and consequently returns `none` on every
input.  The loop-body embedding is kept because it is the faithful
translation of the loop as written, even though the source never reaches
it. -/

/-- Which statement ended the `for i in range(MAX_ITER)` loop. -/
inductive ExitKind where
  | converged
  | saturated
  | exhausted
deriving DecidableEq, Repr

/-- The observable outcome of `LambdaIteration.solve`: the returned `powers`
array, the retained `self.history` (zipped), the final `self.lambda_value`,
the number of iterations executed, and the exit path. -/
structure SolveRes where
  powers : List ℚ
  history : List (ℚ × ℚ)
  lam : ℚ
  iters : ℕ
  exit : ExitKind
deriving DecidableEq, Repr

instance : Inhabited SolveRes := ⟨⟨[], [], 0, 0, .exhausted⟩⟩

/-- One iteration's power vector:
`powers = np.minimum(max_power, np.maximum(min_power, inv_marginal_cost(λ)))`
computed per unit. -/
def clipPowers (units : List ThermalUnit) (lam : ℚ) : List ℚ :=
  units.map (fun u => min u.max_power (max u.min_power (u.inv_marginal_cost lam)))

/-- Squared Euclidean distance from the power vector to the vector of
minimum powers (`np.linalg.norm(powers - min_power)` squared; the source
compares the norm with `5e-2`, the embedding compares its square with
`(5e-2)^2 = 1/400`). -/
def sqDistToMin (units : List ThermalUnit) (powers : List ℚ) : ℚ :=
  (List.zipWith (fun p u => (p - u.min_power) * (p - u.min_power)) powers units).sum

/-- Squared Euclidean distance to the vector of maximum powers. -/
def sqDistToMax (units : List ThermalUnit) (powers : List ℚ) : ℚ :=
  (List.zipWith (fun p u => (p - u.max_power) * (p - u.max_power)) powers units).sum

/-- The body of `for i in range(MAX_ITER)` in `LambdaIteration.solve`,
as a fuel recursion.  `k` counts iterations already executed,
`prev` is the `powers` binding left by the previous iteration
(`none` before the first iteration: Python would raise `NameError` on
`return powers` if the loop never ran, hence the `Option` result). -/
def lambdaLoop (units : List ThermalUnit) (load : ℚ) :
    ℕ → ℚ → ℚ → List (ℚ × ℚ) → ℕ → Option (List ℚ) → Option SolveRes
  | 0, lam, _, hist, k, prev =>
    prev.map (fun p => ⟨p, hist, lam, k, .exhausted⟩)
  | n + 1, lam, delta, hist, k, _ =>
    let powers := clipPowers units lam
    let eps := powers.sum - load
    let hist2 := hist ++ [(lam, eps)]
    let delta2 := delta / 2
    let lam2 := if eps > 0 then lam - delta2 else lam
    let lam3 := if eps < 0 then lam2 + delta2 else lam2
    if |eps| < 1 / 1000 then
      some ⟨powers, hist2, lam3, k + 1, .converged⟩
    else if sqDistToMin units powers < 1 / 400 ∨ sqDistToMax units powers < 1 / 400 then
      some ⟨powers, hist2, lam3, k + 1, .saturated⟩
    else
      lambdaLoop units load n lam3 delta2 hist2 (k + 1) (some powers)

/-- Embeds iteration over `system.units`: iterating a Python dict yields its
keys, i.e. the unit names, in insertion order. -/
def System.unitKeys (s : System) : List String :=
  s.units.map (fun u => u.name)

/-- Embeds one generator element `unit.marginal_cost(unit.min_power)` of the
`lambda_min` computation in `LambdaIteration.solve`, where `unit` is bound
to a dict key — a `String`.  A Python `str` has no `marginal_cost` or
`min_power` attribute, so evaluating the element raises `AttributeError`;
`none` embeds the raised exception. -/
def keyMarginalCostAtMin (_unit : String) : Option ℚ := none

/-- Embeds one generator element `unit.marginal_cost(unit.max_power)` of the
`lambda_max` computation; as with `keyMarginalCostAtMin` the attribute
access on the key string raises `AttributeError`. -/
def keyMarginalCostAtMax (_unit : String) : Option ℚ := none

namespace LambdaIteration

/-- Embeds `LambdaIteration.solve(system, load, MAX_ITER=15)`.  Returns
`none` when evaluation raises: on an empty system `min()` over an empty
generator raises `ValueError`; on a nonempty system the very first
generator element of the `lambda_min` computation raises `AttributeError`,
because `for unit in system.units` ranges over the dict's key strings (see
`keyMarginalCostAtMin`).  The remaining statements — `lambda_max`, `Delta`
and the bisection loop — are embedded in evaluation order but are
unreachable from `solve` in the source. -/
def solve (system : System) (load : ℚ) (MAX_ITER : ℕ) : Option SolveRes := do
  match system.unitKeys with
  | [] => none
  | k0 :: rest =>
    let m0 ← keyMarginalCostAtMin k0
    let lambda_min ← rest.foldlM
      (fun acc k => (keyMarginalCostAtMin k).map (min acc)) m0
    let x0 ← keyMarginalCostAtMax k0
    let lambda_max ← rest.foldlM
      (fun acc k => (keyMarginalCostAtMax k).map (max acc)) x0
    let Delta := (lambda_max - lambda_min) / 2
    lambdaLoop system.units load MAX_ITER (lambda_min + Delta) Delta [] 0 none

end LambdaIteration

/-- The lambda value of the last `(lambda, err)` pair appended to the
history (`0` for an empty history). -/
def lastLam (hist : List (ℚ × ℚ)) : ℚ :=
  ((hist.getLast?).map Prod.fst).getD 0

/-- Sum of the units' `min_power` (the aggregate lower dispatch bound). -/
def sumMin (units : List ThermalUnit) : ℚ := (units.map (·.min_power)).sum

/-- Sum of the units' `max_power` (the aggregate upper dispatch bound). -/
def sumMax (units : List ThermalUnit) : ℚ := (units.map (·.max_power)).sum

/-! ## Deep embedding of the Pyomo model (`src/solvers/unit_commitment.py`)

A Pyomo `ConcreteModel` is embedded as `PyModel`.  Attribute assignment of a
variable or constraint component (`m.name = Var(...)` / `m.name =
Constraint(...)`) is association-list update keyed by the attribute name; if
the name is already bound the old component is replaced (Pyomo's "implicitly
replacing the Component attribute" behaviour).  A constraint rule returning
`Constraint.Skip` is an `Option Cstr` returning `none`.  Variable indices are
tuples of period numbers and name strings (`Idx`); `Atom.setRef` represents a
Pyomo `Set` *object* used as an index value (as the source does in
`m.varAngleC[tt, m.buses.first(), m.contingencies]`), which is never a member
of an index set.  Indexing a variable at an index outside its index set, or
accessing an undeclared attribute (`m.varFlowC`), is a Python error; the
operations that can do so return `Option`. -/

/-- One coordinate of a Pyomo index tuple. -/
inductive Atom where
  | nat (n : ℕ)
  | str (s : String)
  | setRef (s : String)
deriving DecidableEq, Repr

/-- A Pyomo index tuple. -/
abbrev Idx := List Atom

/-- Linear expressions over the model variables (all constraints and
objectives the source builds are linear with rational coefficients). -/
inductive LinExpr where
  | const (q : ℚ)
  | evar (name : String) (idx : Idx)
  | add (a b : LinExpr)
  | sub (a b : LinExpr)
  | smul (q : ℚ) (a : LinExpr)
deriving DecidableEq, Repr

/-- Python `sum(...)` over expressions: starts from `0` and folds `+`. -/
def sumE (l : List LinExpr) : LinExpr := l.foldl .add (.const 0)

/-- Evaluate an expression under an assignment of the model variables. -/
def LinExpr.eval (σ : String → Idx → ℚ) : LinExpr → ℚ
  | .const q => q
  | .evar n i => σ n i
  | .add a b => a.eval σ + b.eval σ
  | .sub a b => a.eval σ - b.eval σ
  | .smul q a => q * a.eval σ

/-- An individual (in)equality constraint. -/
inductive Cstr where
  | le (a b : LinExpr)
  | ge (a b : LinExpr)
  | ceq (a b : LinExpr)
deriving DecidableEq, Repr

/-- Satisfaction of one constraint under an assignment. -/
def Cstr.holds (σ : String → Idx → ℚ) (c : Cstr) : Prop :=
  match c with
  | .le a b => a.eval σ ≤ b.eval σ
  | .ge a b => b.eval σ ≤ a.eval σ
  | .ceq a b => a.eval σ = b.eval σ

instance (σ : String → Idx → ℚ) : (c : Cstr) → Decidable (c.holds σ)
  | .le _ _ => inferInstanceAs (Decidable (_ ≤ _))
  | .ge _ _ => inferInstanceAs (Decidable (_ ≤ _))
  | .ceq _ _ => inferInstanceAs (Decidable (_ = _))

/-- Pyomo variable domains used by the source. -/
inductive Dom where
  | nonneg
  | binary
  | reals
deriving DecidableEq, Repr

/-- Domain membership. -/
def Dom.ok : Dom → ℚ → Prop
  | .nonneg, q => 0 ≤ q
  | .binary, q => q = 0 ∨ q = 1
  | .reals, _ => True

instance : (d : Dom) → (q : ℚ) → Decidable (d.ok q)
  | .nonneg, _ => inferInstanceAs (Decidable (_ ≤ _))
  | .binary, _ => inferInstanceAs (Decidable (_ ∨ _))
  | .reals, _ => inferInstanceAs (Decidable True)

/-- A variable component: its index set and domain. -/
structure VarDecl where
  idxs : List Idx
  dom : Dom
deriving DecidableEq, Repr

/-- The embedded Pyomo `ConcreteModel`.  (The unused `busOut`/`busIn` index
sets the DC builder initializes are not represented: no constraint, variable
or objective of the source ever reads them.) -/
structure PyModel where
  tset : List ℕ
  unitNames : List String
  busSet : List String
  arcSet : List (String × String)
  contSet : List (String × String)
  vars : List (String × VarDecl)
  cons : List (String × List Cstr)
  objective : Option LinExpr
  fixes : List ((String × Idx) × ℚ)
deriving DecidableEq, Repr

/-- A fresh `ConcreteModel()`. -/
def emptyModel : PyModel := ⟨[], [], [], [], [], [], [], none, []⟩

/-- Attribute assignment on a component dictionary: replace the component
bound to the same name in place, otherwise append. -/
def updAssoc {α : Type} : List (String × α) → String → α → List (String × α)
  | [], n, v => [(n, v)]
  | (k, w) :: m, n, v => if k = n then (n, v) :: m else (k, w) :: updAssoc m n v

/-- Attribute lookup on a component dictionary. -/
def assocFind {α : Type} : List (String × α) → String → Option α
  | [], _ => none
  | (k, w) :: m, n => if k = n then some w else assocFind m n

/-- Embeds `m.name = Var(...)`. -/
def addVar (m : PyModel) (name : String) (d : VarDecl) : PyModel :=
  { m with vars := updAssoc m.vars name d }

/-- Embeds `m.name = Constraint(..., rule=...)` with the rule already expanded over
its index set. -/
def addCon (m : PyModel) (name : String) (cs : List Cstr) : PyModel :=
  { m with cons := updAssoc m.cons name cs }

/-- Embeds `m.name[idx].fix(q)`: fails (`AttributeError`) when no variable component
of that name exists, and fails (`KeyError`) when the index is not a member of
the component's index set. -/
def fixVar (m : PyModel) (name : String) (idx : Idx) (q : ℚ) : Option PyModel :=
  match assocFind m.vars name with
  | none => none
  | some d =>
    if idx ∈ d.idxs then some { m with fixes := m.fixes ++ [((name, idx), q)] }
    else none

/-- Index set `m.t × m.units` (and `m.t × m.buses`). -/
def idx2 (ts : List ℕ) (us : List String) : List Idx :=
  (ts.map (fun t => us.map (fun u => [Atom.nat t, Atom.str u]))).flatten

/-- Index set `m.t × m.units × m.contingencies` (arcs flattened). -/
def idx3 (ts : List ℕ) (us : List String) (cs : List (String × String)) : List Idx :=
  (ts.map (fun t => (us.map (fun u =>
    cs.map (fun c => [Atom.nat t, Atom.str u, Atom.str c.1, Atom.str c.2]))).flatten)).flatten

/-- Expand a rule over one index set, dropping the `Constraint.Skip`s. -/
def fam1 {α : Type} (xs : List α) (rule : α → Option Cstr) : List Cstr :=
  xs.filterMap rule

/-- Expand a rule over a product of two index sets. -/
def fam2 {α β : Type} (xs : List α) (ys : List β) (rule : α → β → Option Cstr) :
    List Cstr :=
  (xs.map (fun x => ys.filterMap (rule x))).flatten

/-- Expand a rule over a product of three index sets. -/
def fam3 {α β γ : Type} (xs : List α) (ys : List β) (zs : List γ)
    (rule : α → β → γ → Option Cstr) : List Cstr :=
  (xs.map (fun x => fam2 ys zs (rule x))).flatten

/-- Embeds `m.t.first()`. -/
def tFirst (m : PyModel) : ℕ := m.tset.headD 0

/-- Embeds `m.t.last()`. -/
def tLast (m : PyModel) : ℕ := m.tset.getLastD 0

/-- An assignment satisfies the built model: every declared variable index
lies in its domain and every constraint of every constraint component holds. -/
def feasible (σ : String → Idx → ℚ) (m : PyModel) : Prop :=
  (∀ p ∈ m.vars, ∀ idx ∈ p.2.idxs, p.2.dom.ok (σ p.1 idx)) ∧
  (∀ p ∈ m.cons, ∀ c ∈ p.2, c.holds σ)

instance (σ : String → Idx → ℚ) (m : PyModel) : Decidable (feasible σ m) :=
  inferInstanceAs (Decidable (_ ∧ _))

namespace BaseModel

/-- Embeds `eq_startup`: skipped at `t == m.t.first()`, else
`binIsOn[t,u] - binIsOn[t-1,u] == binStartUp[t,u] - binShutDown[t,u]`. -/
def eq_startup_rule (m : PyModel) (t : ℕ) (u : String) : Option Cstr :=
  if t = tFirst m then none
  else some (.ceq
    (.sub (.evar "binIsOn" [.nat t, .str u]) (.evar "binIsOn" [.nat (t - 1), .str u]))
    (.sub (.evar "binStartUp" [.nat t, .str u]) (.evar "binShutDown" [.nat t, .str u])))

/-- Embeds `eq_min_uptime`: skipped when `min_uptime is None or t > min_uptime`, else
`binShutDown[t,u] <= 1 - sum(binStartUp[tt,u] for tt in m.t if t - min_uptime <= tt <= t)`. -/
def eq_min_uptime_rule (system : UCSystem) (m : PyModel) (t : ℕ) (u : String) :
    Option Cstr :=
  match (system.getItem u).min_uptime with
  | none => none
  | some mu =>
    if t > mu then none
    else some (.le (.evar "binShutDown" [.nat t, .str u])
      (.sub (.const 1)
        (sumE ((m.tset.filter (fun tt : ℕ => decide ((t : ℤ) - mu ≤ (tt : ℤ) ∧ tt ≤ t))).map
          (fun tt => .evar "binStartUp" [.nat tt, .str u])))))

/-- Embeds `eq_min_rest`: the symmetric rule with `startup`/`shutdown` swapped and
`min_rest` in place of `min_uptime`. -/
def eq_min_rest_rule (system : UCSystem) (m : PyModel) (t : ℕ) (u : String) :
    Option Cstr :=
  match (system.getItem u).min_rest with
  | none => none
  | some mr =>
    if t > mr then none
    else some (.le (.evar "binStartUp" [.nat t, .str u])
      (.sub (.const 1)
        (sumE ((m.tset.filter (fun tt : ℕ => decide ((t : ℤ) - mr ≤ (tt : ℤ) ∧ tt ≤ t))).map
          (fun tt => .evar "binShutDown" [.nat tt, .str u])))))

/-- Embeds `eq_ramp_up`: skipped when `ramp_up is None or t == m.t.first()`, else
`varPower[t,u] - varPower[t-1,u] <= ramp_up*binIsOn[t-1,u] + min_power*binStartUp[t,u]`. -/
def eq_ramp_up_rule (system : UCSystem) (m : PyModel) (t : ℕ) (u : String) :
    Option Cstr :=
  match (system.getItem u).ramp_up with
  | none => none
  | some ru =>
    if t = tFirst m then none
    else some (.le
      (.sub (.evar "varPower" [.nat t, .str u]) (.evar "varPower" [.nat (t - 1), .str u]))
      (.add (.smul ru (.evar "binIsOn" [.nat (t - 1), .str u]))
        (.smul (system.getItem u).min_power (.evar "binStartUp" [.nat t, .str u]))))

/-- Embeds `eq_ramp_down`: skipped when `ramp_down is None or t == m.t.first()`, else
`varPower[t-1,u] - varPower[t,u] <= ramp_down*binIsOn[t,u] + min_power*binShutDown[t,u]`. -/
def eq_ramp_down_rule (system : UCSystem) (m : PyModel) (t : ℕ) (u : String) :
    Option Cstr :=
  match (system.getItem u).ramp_down with
  | none => none
  | some rd =>
    if t = tFirst m then none
    else some (.le
      (.sub (.evar "varPower" [.nat (t - 1), .str u]) (.evar "varPower" [.nat t, .str u]))
      (.add (.smul rd (.evar "binIsOn" [.nat t, .str u]))
        (.smul (system.getItem u).min_power (.evar "binShutDown" [.nat t, .str u]))))

/-- Embeds `_build_units_equations(system)`. -/
def build_units_equations (system : UCSystem) (m0 : PyModel) : PyModel :=
  let uns := system.units.map (·.name)
  let m := { m0 with unitNames := uns }
  let m := addVar m "varPower" ⟨idx2 m.tset uns, .nonneg⟩
  let m := addVar m "binStartUp" ⟨idx2 m.tset uns, .binary⟩
  let m := addVar m "binShutDown" ⟨idx2 m.tset uns, .binary⟩
  let m := addVar m "binIsOn" ⟨idx2 m.tset uns, .binary⟩
  let m := addCon m "eq_startup" (fam2 m.tset uns (eq_startup_rule m))
  let m := addCon m "eq_min_uptime" (fam2 m.tset uns (eq_min_uptime_rule system m))
  let m := addCon m "eq_min_rest" (fam2 m.tset uns (eq_min_rest_rule system m))
  let m := addCon m "eq_ramp_up" (fam2 m.tset uns (eq_ramp_up_rule system m))
  let m := addCon m "eq_ramp_down" (fam2 m.tset uns (eq_ramp_down_rule system m))
  let m := addCon m "eq_min_power" (fam2 m.tset uns (fun t u =>
    some (.ge (.evar "varPower" [.nat t, .str u])
      (.smul (system.getItem u).min_power (.evar "binIsOn" [.nat t, .str u])))))
  let m := addCon m "eq_max_power" (fam2 m.tset uns (fun t u =>
    some (.le (.evar "varPower" [.nat t, .str u])
      (.smul (system.getItem u).max_power (.evar "binIsOn" [.nat t, .str u])))))
  m

/-- The reserve ramp-up rule: skipped when `ramp_up is None or t == m.t.first()`,
else `varReserve[t,u] <= varPower[t-1,u] + ramp_up*binIsOn[t-1,u] + min_power*binStartUp[t,u]`. -/
def reserve_ramp_up_rule (system : UCSystem) (m : PyModel) (t : ℕ) (u : String) :
    Option Cstr :=
  match (system.getItem u).ramp_up with
  | none => none
  | some ru =>
    if t = tFirst m then none
    else some (.le (.evar "varReserve" [.nat t, .str u])
      (.add (.add (.evar "varPower" [.nat (t - 1), .str u])
          (.smul ru (.evar "binIsOn" [.nat (t - 1), .str u])))
        (.smul (system.getItem u).min_power (.evar "binStartUp" [.nat t, .str u]))))

/-- The reserve ramp-down rule of the source (note: it tests `ramp_up is
None`, not `ramp_down`): skipped when `ramp_up is None or t == m.t.last()`,
else `varReserve[t,u] <= min_power*binShutDown[t+1,u] + min_power*(binIsOn[t,u] - binShutDown[t+1,u])`. -/
def reserve_ramp_down_rule (system : UCSystem) (m : PyModel) (t : ℕ) (u : String) :
    Option Cstr :=
  match (system.getItem u).ramp_up with
  | none => none
  | some _ =>
    if t = tLast m then none
    else some (.le (.evar "varReserve" [.nat t, .str u])
      (.add (.smul (system.getItem u).min_power (.evar "binShutDown" [.nat (t + 1), .str u]))
        (.smul (system.getItem u).min_power
          (.sub (.evar "binIsOn" [.nat t, .str u])
            (.evar "binShutDown" [.nat (t + 1), .str u])))))

/-- Embeds `_build_reserve_equations(system)`: returns the model unchanged when
`reserve_req == 0`; otherwise declares `varReserve` and assigns the four
reserve constraint components.  The source assigns the ramp-down family to
the attribute name `eq_reserve_ramp_up` (the same name the ramp-up family
was just assigned to), so the ramp-up component is replaced. -/
def build_reserve_equations (system : UCSystem) (m0 : PyModel) : PyModel :=
  let r := system.reserve_req
  if r = 0 then m0
  else
    let uns := m0.unitNames
    let m := addVar m0 "varReserve" ⟨idx2 m0.tset uns, .nonneg⟩
    let m := addCon m "eq_reserve_power" (fam2 m.tset uns (fun t u =>
      some (.ge (.evar "varReserve" [.nat t, .str u])
        (.evar "varPower" [.nat t, .str u]))))
    let m := addCon m "eq_reserve_max_power" (fam2 m.tset uns (fun t u =>
      some (.le (.evar "varReserve" [.nat t, .str u])
        (.smul (system.getItem u).max_power (.evar "binIsOn" [.nat t, .str u])))))
    let m := addCon m "eq_reserve_ramp_up" (fam2 m.tset uns (reserve_ramp_up_rule system m))
    let m := addCon m "eq_reserve_ramp_up" (fam2 m.tset uns (reserve_ramp_down_rule system m))
    m

/-- Embeds `_build_balance_equations(system, load)`:
`eq_balance_power[t]: sum(varPower[t,u]) >= load[t]` always, and when
`1 > reserve_req > 0` also
`eq_balance_reserve[t]: sum(varReserve[t,u]) >= load[t]*(1+reserve_req)`. -/
def build_balance_equations (system : UCSystem) (load : List ℚ) (m0 : PyModel) :
    PyModel :=
  let m := addCon m0 "eq_balance_power" (fam1 m0.tset (fun t =>
    some (.ge (sumE (m0.unitNames.map (fun u => .evar "varPower" [.nat t, .str u])))
      (.const (load.getD t 0)))))
  let r := system.reserve_req
  if 1 > r ∧ r > 0 then
    addCon m "eq_balance_reserve" (fam1 m.tset (fun t =>
      some (.ge (sumE (m.unitNames.map (fun u => .evar "varReserve" [.nat t, .str u])))
        (.const (load.getD t 0 * (1 + r))))))
  else m

/-- Embeds `BaseModel._build_model(system, load)`: fresh model with
`m.t = range(len(load))`, then units, reserve and balance equations. -/
def build_model (system : UCSystem) (load : List ℚ) : PyModel :=
  let m := { emptyModel with tset := List.range load.length }
  let m := build_units_equations system m
  let m := build_reserve_equations system m
  let m := build_balance_equations system load m
  m

end BaseModel

namespace LPModel

/-- One support line of the piecewise-linear objective
(`LPModel._build_linear_objective`, loop body): with `num_lines = 2` and
breakpoints `p = np.linspace(min_power, max_power, 3)`,
`fp = input_output(p)`, the `i`-th support inequality is
`varFuelCons[t,u] >= fp[i]*binIsOn[t,u] + (fp[i+1]-fp[i])/(p[i+1]-p[i]) * (varPower[t,u] - p[i])`. -/
def support_line (system : UCSystem) (t : ℕ) (u : String) (i : ℕ) : Cstr :=
  let uu := system.getItem u
  let pt : ℕ → ℚ := fun j => uu.min_power + j * (uu.max_power - uu.min_power) / 2
  let fp : ℕ → ℚ := fun j => uu.input_output (pt j)
  .ge (.evar "varFuelCons" [.nat t, .str u])
    (.add (.smul (fp i) (.evar "binIsOn" [.nat t, .str u]))
      (.smul ((fp (i + 1) - fp i) / (pt (i + 1) - pt i))
        (.sub (.evar "varPower" [.nat t, .str u]) (.const (pt i)))))

/-- Embeds `_build_linear_objective(system, num_lines=2)`: declares `varFuelCons`,
fills the `support_lines` `ConstraintList` over `t × units × range(2)`, and
sets the cost objective
`sum(varFuelCons[t,u]*fuel_cost) + sum(binStartUp[t,u]*start_up_cost)`. -/
def build_linear_objective (system : UCSystem) (m0 : PyModel) : PyModel :=
  let m := addVar m0 "varFuelCons" ⟨idx2 m0.tset m0.unitNames, .nonneg⟩
  let m := addCon m "support_lines"
    ((m.tset.map (fun t => (m.unitNames.map (fun u =>
      (List.range 2).map (fun i => support_line system t u i))).flatten)).flatten)
  { m with objective := some (.add
      (sumE ((system.units.map (fun u => m.tset.map (fun t =>
        LinExpr.smul u.fuel_cost (.evar "varFuelCons" [.nat t, .str u.name])))).flatten))
      (sumE ((system.units.map (fun u => m.tset.map (fun t =>
        LinExpr.smul u.start_up_cost (.evar "binStartUp" [.nat t, .str u.name])))).flatten))) }

end LPModel

namespace DCModel

/-- Embeds `flow_limit_up`: skipped when `power_lim(a,b) is None`, else
`Z(a,b)*(varAngle[t,a]-varAngle[t,b]) <= power_lim(a,b)`. -/
def flow_limit_up_rule (network : Network) (t : ℕ) (arc : String × String) :
    Option Cstr :=
  match network.power_lim arc.1 arc.2 with
  | none => none
  | some pl => some (.le
      (.smul (network.Z arc.1 arc.2)
        (.sub (.evar "varAngle" [.nat t, .str arc.1]) (.evar "varAngle" [.nat t, .str arc.2])))
      (.const pl))

/-- Embeds `flow_limit_lo`: skipped when `power_lim(a,b) is None`, else
`Z(a,b)*(varAngle[t,a]-varAngle[t,b]) >= -power_lim(a,b)`. -/
def flow_limit_lo_rule (network : Network) (t : ℕ) (arc : String × String) :
    Option Cstr :=
  match network.power_lim arc.1 arc.2 with
  | none => none
  | some pl => some (.ge
      (.smul (network.Z arc.1 arc.2)
        (.sub (.evar "varAngle" [.nat t, .str arc.1]) (.evar "varAngle" [.nat t, .str arc.2])))
      (.const (-pl)))

/-- Embeds `eq_flow_balance`: at each `(t, bus)`,
`sum(varPower[t,u] for linked u) - demand == sum(Z(bus,i)*(varAngle[t,bus]-varAngle[t,i]) for i != bus)`
where `demand = load.get(bus, None)` and a missing bus means demand `0`,
else `demand[t]`. -/
def eq_flow_balance_rule (network : Network) (loadMap : List (String × List ℚ))
    (m : PyModel) (t : ℕ) (bus : String) : Cstr :=
  let demand : ℚ :=
    match assocFind loadMap bus with
    | none => 0
    | some d => d.getD t 0
  .ceq
    (.sub (sumE ((m.unitNames.filter (fun u => network.link bus u)).map
        (fun u => .evar "varPower" [.nat t, .str u])))
      (.const demand))
    (sumE ((m.busSet.filter (fun i => decide (i ≠ bus))).map
      (fun i => LinExpr.smul (network.Z bus i)
        (.sub (.evar "varAngle" [.nat t, .str bus]) (.evar "varAngle" [.nat t, .str i])))))

/-- Embeds `DCModel._build_balance_equations(network, load)`: bus/arc sets, the
`varAngle` variables with the reference-angle fix
`m.varAngle[tt, m.buses.first()].fix(0)`, flow limits, nodal flow balance,
and (when `1 > reserve_req > 0`) the nodal reserve constraint, whose rule
indexes `load[bus]` directly and therefore fails (`KeyError`) on a bus
missing from the load mapping. -/
def build_balance_equations (network : Network) (loadMap : List (String × List ℚ))
    (m0 : PyModel) : Option PyModel := do
  let m := { m0 with busSet := network.buses, arcSet := network.lines.map (·.1) }
  let m := addVar m "varAngle" ⟨idx2 m.tset m.busSet, .reals⟩
  let m ← m.tset.foldlM (fun acc tt =>
    fixVar acc "varAngle" [.nat tt, .str (acc.busSet.headD "")] 0) m
  let m := addCon m "eq_flow_limits_up" (fam2 m.tset m.arcSet (flow_limit_up_rule network))
  let m := addCon m "eq_flow_limits_lo" (fam2 m.tset m.arcSet (flow_limit_lo_rule network))
  let m := addCon m "eq_flow_balance" (fam2 m.tset m.busSet (fun t bus =>
    some (eq_flow_balance_rule network loadMap m t bus)))
  let r := network.system.reserve_req
  if 1 > r ∧ r > 0 then do
    let fams ← m.tset.mapM (fun t => m.busSet.mapM (fun bus =>
      (assocFind loadMap bus).map (fun d =>
        Cstr.ge (sumE (m.unitNames.map (fun u => .evar "varReserve" [.nat t, .str u])))
          (.const (d.getD t 0 * (1 + r))))))
    pure (addCon m "eq_flow_reserve" fams.flatten)
  else
    pure m

/-- Embeds `DCModel._build_model(network, load)`: `T` is the length of the first
entry of the load dict (`len(list(load.values())[0])`, an `IndexError` on an
empty dict), then units, reserve, DC balance and linear objective. -/
def build_model (network : Network) (loadMap : List (String × List ℚ)) :
    Option PyModel := do
  match loadMap with
  | [] => none
  | (_, d0) :: _ =>
    let m := { emptyModel with tset := List.range d0.length }
    let m := BaseModel.build_units_equations network.system m
    let m := BaseModel.build_reserve_equations network.system m
    let m ← build_balance_equations network loadMap m
    pure (LPModel.build_linear_objective network.system m)

end DCModel

namespace SCDCModel

/-- Embeds `eq_contingency_ramp_up`: skipped when `ramp_up is None or t == m.t.first()`,
else `varPowerC[t,u,c] - varPowerC[t-1,u,c] <= ramp_up*binIsOn[t-1,u] + min_power*binStartUp[t,u]`. -/
def eq_contingency_ramp_up_rule (system : UCSystem) (m : PyModel) (t : ℕ)
    (u : String) (c : String × String) : Option Cstr :=
  match (system.getItem u).ramp_up with
  | none => none
  | some ru =>
    if t = tFirst m then none
    else some (.le
      (.sub (.evar "varPowerC" [.nat t, .str u, .str c.1, .str c.2])
        (.evar "varPowerC" [.nat (t - 1), .str u, .str c.1, .str c.2]))
      (.add (.smul ru (.evar "binIsOn" [.nat (t - 1), .str u]))
        (.smul (system.getItem u).min_power (.evar "binStartUp" [.nat t, .str u]))))

/-- Embeds `eq_contingency_ramp_down`: mirrored with `ramp_down`/`binShutDown`. -/
def eq_contingency_ramp_down_rule (system : UCSystem) (m : PyModel) (t : ℕ)
    (u : String) (c : String × String) : Option Cstr :=
  match (system.getItem u).ramp_down with
  | none => none
  | some rd =>
    if t = tFirst m then none
    else some (.le
      (.sub (.evar "varPowerC" [.nat (t - 1), .str u, .str c.1, .str c.2])
        (.evar "varPowerC" [.nat t, .str u, .str c.1, .str c.2]))
      (.add (.smul rd (.evar "binIsOn" [.nat t, .str u]))
        (.smul (system.getItem u).min_power (.evar "binShutDown" [.nat t, .str u]))))

/-- Embeds `eq_contingency_react_up`: skipped when `ramp_up is None`, else
`varPowerC[t,u,c] - varPower[t,u] <= ramp_up/2`. -/
def eq_contingency_react_up_rule (system : UCSystem) (t : ℕ) (u : String)
    (c : String × String) : Option Cstr :=
  match (system.getItem u).ramp_up with
  | none => none
  | some ru => some (.le
      (.sub (.evar "varPowerC" [.nat t, .str u, .str c.1, .str c.2])
        (.evar "varPower" [.nat t, .str u]))
      (.const (ru / 2)))

/-- Embeds `eq_contingency_react_down`: skipped when `ramp_down is None`, else
`varPower[t,u] - varPowerC[t,u,c] <= ramp_down/2`. -/
def eq_contingency_react_down_rule (system : UCSystem) (t : ℕ) (u : String)
    (c : String × String) : Option Cstr :=
  match (system.getItem u).ramp_down with
  | none => none
  | some rd => some (.le
      (.sub (.evar "varPower" [.nat t, .str u])
        (.evar "varPowerC" [.nat t, .str u, .str c.1, .str c.2]))
      (.const (rd / 2)))

/-- Contingency flow limits (up), on the duplicated angle variables. -/
def contingencies_flow_limit_up_rule (network : Network) (t : ℕ)
    (arc : String × String) (c : String × String) : Option Cstr :=
  match network.power_lim arc.1 arc.2 with
  | none => none
  | some pl => some (.le
      (.smul (network.Z arc.1 arc.2)
        (.sub (.evar "varAngleC" [.nat t, .str arc.1, .str c.1, .str c.2])
          (.evar "varAngleC" [.nat t, .str arc.2, .str c.1, .str c.2])))
      (.const pl))

/-- Contingency flow limits (lo). -/
def contingencies_flow_limit_lo_rule (network : Network) (t : ℕ)
    (arc : String × String) (c : String × String) : Option Cstr :=
  match network.power_lim arc.1 arc.2 with
  | none => none
  | some pl => some (.ge
      (.smul (network.Z arc.1 arc.2)
        (.sub (.evar "varAngleC" [.nat t, .str arc.1, .str c.1, .str c.2])
          (.evar "varAngleC" [.nat t, .str arc.2, .str c.1, .str c.2])))
      (.const (-pl)))

/-- Contingency nodal flow balance, on the duplicated power/angle variables. -/
def contingencies_eq_flow_balance_rule (network : Network)
    (loadMap : List (String × List ℚ)) (m : PyModel) (t : ℕ) (bus : String)
    (c : String × String) : Cstr :=
  let demand : ℚ :=
    match assocFind loadMap bus with
    | none => 0
    | some d => d.getD t 0
  .ceq
    (.sub (sumE ((m.unitNames.filter (fun u => network.link bus u)).map
        (fun u => .evar "varPowerC" [.nat t, .str u, .str c.1, .str c.2])))
      (.const demand))
    (sumE ((m.busSet.filter (fun i => decide (i ≠ bus))).map
      (fun i => LinExpr.smul (network.Z bus i)
        (.sub (.evar "varAngleC" [.nat t, .str bus, .str c.1, .str c.2])
          (.evar "varAngleC" [.nat t, .str i, .str c.1, .str c.2])))))

/-- Embeds `SCDCModel._build_security_constraints(network, load, contingencies)`.
`contingencies = none` embeds the `'all'` default (`SetOf(m.arcs)`).

Two of its statements are Python errors, so the builder returns `Option`:

* `m.varAngleC[tt, m.buses.first(), m.contingencies].fix(0)` passes the
  contingency `Set` object itself as the third index coordinate
  (`Atom.setRef "contingencies"`), which is not a member of the variable's
  index set — `KeyError` on the first loop iteration;
* `m.varFlowC[t, c, c].fix(0)` reads the attribute `varFlowC`, which no
  builder ever declares (the DC formulation has angle variables only) —
  `AttributeError`. -/
def build_security_constraints (network : Network)
    (loadMap : List (String × List ℚ))
    (contingencies : Option (List (String × String))) (m0 : PyModel) :
    Option PyModel := do
  let system := network.system
  let conts := match contingencies with
    | none => m0.arcSet
    | some cs => cs
  let m := { m0 with contSet := conts }
  let m := addVar m "varPowerC" ⟨idx3 m.tset m.unitNames m.contSet, .nonneg⟩
  let m := addCon m "eq_contingency_ramp_up"
    (fam3 m.tset m.unitNames m.contSet (eq_contingency_ramp_up_rule system m))
  let m := addCon m "eq_contingency_ramp_down"
    (fam3 m.tset m.unitNames m.contSet (eq_contingency_ramp_down_rule system m))
  let m := addCon m "eq_contingency_min_power"
    (fam3 m.tset m.unitNames m.contSet (fun t u _c =>
      some (.ge (.evar "varPowerC" [.nat t, .str u, .str _c.1, .str _c.2])
        (.smul (system.getItem u).min_power (.evar "binIsOn" [.nat t, .str u])))))
  let m := addCon m "eq_contingency_max_power"
    (fam3 m.tset m.unitNames m.contSet (fun t u _c =>
      some (.le (.evar "varPowerC" [.nat t, .str u, .str _c.1, .str _c.2])
        (.smul (system.getItem u).max_power (.evar "binIsOn" [.nat t, .str u])))))
  let m := addCon m "eq_contingency_react_up"
    (fam3 m.tset m.unitNames m.contSet (eq_contingency_react_up_rule system))
  let m := addCon m "eq_contingency_react_down"
    (fam3 m.tset m.unitNames m.contSet (eq_contingency_react_down_rule system))
  let m := addVar m "varAngleC"
    ⟨(m.tset.map (fun t => (m.busSet.map (fun b =>
        m.contSet.map (fun c => [Atom.nat t, Atom.str b, Atom.str c.1, Atom.str c.2]))).flatten)).flatten,
      .reals⟩
  let m ← m.contSet.foldlM (fun acc _c => acc.tset.foldlM (fun a2 tt =>
    fixVar a2 "varAngleC"
      [.nat tt, .str (a2.busSet.headD ""), .setRef "contingencies"] 0) acc) m
  let m := addCon m "eq_contingencies_flow_limits_up"
    (fam3 m.tset m.arcSet m.contSet (contingencies_flow_limit_up_rule network))
  let m := addCon m "eq_contingencies_flow_limits_lo"
    (fam3 m.tset m.arcSet m.contSet (contingencies_flow_limit_lo_rule network))
  let m := addCon m "eq_contingencies_flow_balance"
    (fam3 m.tset m.busSet m.contSet (fun t bus c =>
      some (contingencies_eq_flow_balance_rule network loadMap m t bus c)))
  let m ← m.contSet.foldlM (fun acc c => acc.tset.foldlM (fun a2 t =>
    fixVar a2 "varFlowC" [.nat t, .str c.1, .str c.2, .str c.1, .str c.2] 0) acc) m
  pure m

/-- Embeds `SCDCModel._build_model(network, load, contingencies)`: the DC build
followed by the security constraints. -/
def build_model (network : Network) (loadMap : List (String × List ℚ))
    (contingencies : Option (List (String × String))) : Option PyModel := do
  let m ← DCModel.build_model network loadMap
  build_security_constraints network loadMap contingencies m

end SCDCModel

/-! ## Concrete instances used to settle the claims -/

/-- The single-unit system of §8 of the spec: `curve=(0,10,0.1)`,
`fuel_cost=1`, `min_power=0`, `max_power=100`. -/
def bisectUnit : ThermalUnit :=
  ⟨"g", 0, 10, 1 / 10, 1, 0, 100, 0, none, none, none, none⟩

/-- The system holding only `bisectUnit`. -/
def bisectSys : System := System.ofUnits [bisectUnit]

/-- A unit with a quadratic coefficient equal to the source's epsilon guard:
`c2 = 1e-7 > 0`, `c1 = 0`, `fuel_cost = 1`, power range `[0, 10^9]`. -/
def flatUnit : ThermalUnit :=
  ⟨"q", 0, 0, 1 / 10000000, 1, 0, 1000000000, 0, none, none, none, none⟩

/-- A two-unit system (names `"g"` and `"q"`), used to exercise the solve
contract on a nonempty multi-unit fleet. -/
def twoUnitSys : System := System.ofUnits [bisectUnit, flatUnit]

/-- A unit with ramp limits, for exercising the reserve ramp families. -/
def rampUnit : ThermalUnit :=
  ⟨"g", 0, 1, 1, 1, 2, 10, 0, some 1, some 1, none, none⟩

/-- Embeds `rampUnit` fleet with reserve disabled (`reserve_req = 0`). -/
def ucSysNoRes : UCSystem := UCSystem.ofUnits [rampUnit] 0

/-- Embeds `rampUnit` fleet with `reserve_req = 0.1`. -/
def ucSysRes : UCSystem := UCSystem.ofUnits [rampUnit] (1 / 10)

/-- The unit-commitment model built with reserve disabled, over two periods. -/
def builtNoRes : PyModel := BaseModel.build_model ucSysNoRes [1, 1]

/-- The unit-commitment model built with `reserve_req = 0.1`, same system
and load. -/
def builtRes : PyModel := BaseModel.build_model ucSysRes [1, 1]

/-- The five reserve-related constraint component names of §4.4 of the spec:
reserve at least power, reserve at most `max_power`·`on`, the ramp-up
analogue, the ramp-down analogue, and the system reserve balance. -/
def reserveFamilyNames : List String :=
  ["eq_reserve_power", "eq_reserve_max_power", "eq_reserve_ramp_up",
   "eq_reserve_ramp_down", "eq_balance_reserve"]

/-- An unconstrained unit for the telescoping counterexample. -/
def teleUnit : ThermalUnit :=
  ⟨"g", 0, 1, 0, 1, 0, 10, 0, none, none, none, none⟩

/-- Single-`teleUnit` system, reserve disabled. -/
def teleSys : UCSystem := UCSystem.ofUnits [teleUnit] 0

/-- The two-period unit-commitment model over `teleSys` with zero load. -/
def teleModel : PyModel := BaseModel.build_model teleSys [0, 0]

/-- The assignment that is everywhere `0` except `binStartUp[0,"g"] = 1`:
every unit stays off, but a startup is flagged in the first period (the
period at which the source skips the startup/shutdown balance row). -/
def teleSigma : String → Idx → ℚ := fun n idx =>
  if n = "binStartUp" ∧ idx = [.nat 0, .str "g"] then 1 else 0

/-- A linked unit for the network models. -/
def scUnit : ThermalUnit :=
  ⟨"g", 0, 1, 0, 1, 0, 10, 0, some 1, some 1, none, none⟩

/-- Single-`scUnit` system, reserve disabled. -/
def scSys : UCSystem := UCSystem.ofUnits [scUnit] 0

/-- A two-bus network with one line `("x","y")`, `power_lim=5`, `Z=2`, and
the unit `g` feeding bus `x`. -/
def scNet : Network := Network.ofLines [⟨("x", "y"), some 5, 2⟩] scSys [("x", "g")]

/-- A one-period nodal load mapping containing only bus `x`. -/
def scLoad : List (String × List ℚ) := [("x", [1])]

/-- The DC-OPF model built over `scNet`/`scLoad` (the build succeeds). -/
def builtDC : PyModel := (DCModel.build_model scNet scLoad).getD emptyModel

/-- Units for the duplicate-name construction: two different units named
`"a"` around one named `"b"`. -/
def dupA : ThermalUnit := ⟨"a", 1, 0, 0, 1, 0, 5, 0, none, none, none, none⟩

/-- The second unit named `"a"` (different data). -/
def dupA2 : ThermalUnit := ⟨"a", 7, 0, 0, 1, 0, 9, 0, none, none, none, none⟩

/-- The unit named `"b"`. -/
def dupB : ThermalUnit := ⟨"b", 2, 0, 0, 1, 0, 6, 0, none, none, none, none⟩

/-- First-occurrence key order of a Python dict comprehension: fold the key
sequence, appending a key only when it is new.  (Spec-side characterisation
used to state claim C10.) -/
def firstOccurrences (ns : List String) : List String :=
  ns.foldl (fun acc n => if n ∈ acc then acc else acc ++ [n]) []

/-! ## Helper lemmas -/

theorem assocFind_updAssoc_self {α : Type} (l : List (String × α)) (n : String)
    (v : α) : assocFind (updAssoc l n v) n = some v := by
  induction l with
  | nil => simp [updAssoc, assocFind]
  | cons p m ih =>
    by_cases h : p.1 = n
    · simp [updAssoc, assocFind, h]
    · simp [updAssoc, assocFind, h, ih]

theorem assocFind_updAssoc_ne {α : Type} (l : List (String × α)) (n k : String)
    (v : α) (h : ¬ k = n) : assocFind (updAssoc l n v) k = assocFind l k := by
  have hnk : ¬ n = k := fun hx => h hx.symm
  induction l with
  | nil => simp [updAssoc, assocFind, hnk]
  | cons p m ih =>
    by_cases h2 : p.1 = n
    · have h3 : ¬ p.1 = k := by rw [h2]; exact hnk
      simp [updAssoc, assocFind, h2, hnk, h3]
    · by_cases h3 : p.1 = k
      · simp [updAssoc, assocFind, h2, h3, h]
      · simp [updAssoc, assocFind, h2, h3, h, ih]

theorem assocFind_mem {α : Type} (l : List (String × α)) (n : String) (v : α)
    (h : assocFind l n = some v) : (n, v) ∈ l := by
  induction l with
  | nil => simp [assocFind] at h
  | cons p m ih =>
    by_cases h2 : p.1 = n
    · simp only [assocFind, h2, if_true] at h
      cases p with
      | mk a b =>
        simp only at h2
        have hb : b = v := by injection h
        subst h2
        subst hb
        exact List.mem_cons_self _ _
    · simp only [assocFind, h2, if_false] at h
      exact .tail _ (ih h)

theorem mem_fam2 {α β : Type} (xs : List α) (ys : List β)
    (rule : α → β → Option Cstr) (x : α) (y : β) (c : Cstr)
    (hx : x ∈ xs) (hy : y ∈ ys) (hr : rule x y = some c) :
    c ∈ fam2 xs ys rule := by
  simp only [fam2, List.mem_flatten, List.mem_map]
  exact ⟨ys.filterMap (rule x), ⟨x, hx, rfl⟩, List.mem_filterMap.2 ⟨y, hy, hr⟩⟩

theorem lastLam_concat (h : List (ℚ × ℚ)) (p : ℚ × ℚ) :
    lastLam (h ++ [p]) = p.1 := by
  simp [lastLam, List.getLast?_concat]

/-- Exit-path invariants of the `for i in range(MAX_ITER)` loop of
`LambdaIteration.solve`: the history has one `(lambda, err)` entry per
executed iteration, the returned powers are the clipped powers at the last
recorded lambda, and each exit kind certifies its own break condition. -/
theorem lambdaLoop_spec (units : List ThermalUnit) (load : ℚ) :
    ∀ (fuel : ℕ) (lam delta : ℚ) (hist : List (ℚ × ℚ)) (k : ℕ)
      (prev : Option (List ℚ)) (r : SolveRes),
      hist.length = k →
      (∀ p, prev = some p → hist ≠ [] ∧ p = clipPowers units (lastLam hist) ∧
        ¬ |p.sum - load| < 1 / 1000 ∧
        ¬ (sqDistToMin units p < 1 / 400 ∨ sqDistToMax units p < 1 / 400)) →
      lambdaLoop units load fuel lam delta hist k prev = some r →
      r.history.length = r.iters ∧
      r.history ≠ [] ∧
      r.powers = clipPowers units (lastLam r.history) ∧
      k ≤ r.iters ∧ r.iters ≤ k + fuel ∧
      (r.exit = .converged → |r.powers.sum - load| < 1 / 1000) ∧
      (r.exit = .saturated → ¬ |r.powers.sum - load| < 1 / 1000 ∧
        (sqDistToMin units r.powers < 1 / 400 ∨ sqDistToMax units r.powers < 1 / 400)) ∧
      (r.exit = .exhausted → r.iters = k + fuel ∧
        ¬ |r.powers.sum - load| < 1 / 1000 ∧
        ¬ (sqDistToMin units r.powers < 1 / 400 ∨ sqDistToMax units r.powers < 1 / 400)) := by
  intro fuel
  induction fuel with
  | zero =>
    intro lam delta hist k prev r hlen hprev hres
    cases prev with
    | none => simp [lambdaLoop] at hres
    | some p =>
      simp only [lambdaLoop, Option.map_some', Option.some.injEq] at hres
      obtain ⟨hne, hp, hconv, hsat⟩ := hprev p rfl
      subst hres
      exact ⟨hlen, hne, hp, le_refl _, Nat.le_add_right k 0, by simp, by simp,
        fun _ => ⟨rfl, hconv, hsat⟩⟩
  | succ n ih =>
    intro lam delta hist k prev r hlen hprev hres
    simp only [lambdaLoop] at hres
    split at hres
    next hc =>
      rw [Option.some.injEq] at hres
      subst hres
      refine ⟨by simp [hlen], by simp, by rw [lastLam_concat], Nat.le_succ k,
        Nat.add_le_add_left (Nat.succ_le_succ (Nat.zero_le n)) k,
        fun _ => hc, by simp, by simp⟩
    next hc =>
      split at hres
      next hsat =>
        rw [Option.some.injEq] at hres
        subst hres
        refine ⟨by simp [hlen], by simp, by rw [lastLam_concat], Nat.le_succ k,
          Nat.add_le_add_left (Nat.succ_le_succ (Nat.zero_le n)) k,
          by simp, fun _ => ⟨hc, hsat⟩, by simp⟩
      next hsat =>
        have hres2 := ih _ _ _ _ _ _ (by simp [hlen]) (fun p hp => by
          rw [Option.some.injEq] at hp
          subst hp
          exact ⟨by simp, by rw [lastLam_concat], hc, hsat⟩) hres
        obtain ⟨h1, h2, h3, h4, h5, h6, h7, h8⟩ := hres2
        exact ⟨h1, h2, h3, by omega, by omega, h6, h7,
          fun hx => ⟨by have := (h8 hx).1; omega, (h8 hx).2.1, (h8 hx).2.2⟩⟩

/-- Elementwise clipping keeps each power inside the unit's band when the
band is nonempty. -/
theorem clipPowers_bounds (units : List ThermalUnit) (lam : ℚ)
    (h : ∀ u ∈ units, u.min_power ≤ u.max_power) :
    List.Forall₂ (fun u p => u.min_power ≤ p ∧ p ≤ u.max_power) units
      (clipPowers units lam) := by
  induction units with
  | nil => simp [clipPowers]
  | cons u rest ih =>
    refine List.Forall₂.cons ⟨?_, ?_⟩ (ih (fun v hv => h v (List.mem_cons_of_mem u hv)))
    · exact le_min (h u (List.mem_cons_self u rest)) (le_max_left _ _)
    · exact min_le_left _ _

/-- C1 (amended): `LambdaIteration.solve` never returns a power vector: for
every system, load and iteration budget it evaluates to `none`, because the
`lambda_min` computation iterates `system.units` — whose Python iteration
yields the dict's *key strings* — and calls `marginal_cost` on a `str`,
raising `AttributeError` before the first bisection iteration (`ValueError`
for an empty system).  In particular it neither produces a vector summing to
within `1e-3` of the load nor reaches the saturation test. -/
theorem lambda_iteration_never_returns (sys : System) (load : ℚ) (M : ℕ) :
    LambdaIteration.solve sys load M = none := by
  cases h : sys.unitKeys with
  | nil => simp [LambdaIteration.solve, h]
  | cons k rest => simp [LambdaIteration.solve, h, keyMarginalCostAtMin]

/-- Witness for `lambda_iteration_never_returns` at the in-bounds load. -/
theorem lambda_iteration_never_returns_witness :
    LambdaIteration.solve bisectSys (3 / 100) 15 = none :=
  lambda_iteration_never_returns bisectSys (3 / 100) 15

/-- C6: `solve` evaluated on the §8 scenario (`curve=(0,10,0.1)`,
`fuel_cost=1`, bounds `[0,100]`, load `50`): the `AttributeError` raised by
the `lambda_min` generator (dict-key iteration over the unit name strings)
ends the call before the first iteration, so no power vector — computed at
the pre-adjustment lambda or at any other — is ever returned. -/
theorem solve_demo_never_returns :
    LambdaIteration.solve bisectSys 50 15 = none := rfl

/-- C7: `solve` evaluated on a concrete nonempty two-unit system: the call
returns no array at all (the `lambda_min` computation raises on the first
dict key), contradicting the contract of one clipped power entry per unit
with a retained history. -/
theorem solve_contract_crashes_on_two_units :
    LambdaIteration.solve twoUnitSys 50 15 = none ∧
    twoUnitSys.units.length = 2 :=
  ⟨by decide, by decide⟩

section

attribute [local semireducible] Rat.add Rat.mul Rat.sub Rat.inv

set_option maxRecDepth 100000

/-- C1 (counterexample to the claim as stated): the load `3/100` satisfies
the claim's hypothesis `sum min_power ≤ load ≤ sum max_power` strictly on
`bisectSys`, yet `solve` returns no power vector at all (the call raises
before its first iteration), so neither disjunct of the claim can hold. -/
theorem lambda_iteration_no_vector_inside_bounds :
    LambdaIteration.solve bisectSys (3 / 100) 15 = none ∧
    sumMin bisectSys.units < 3 / 100 ∧ 3 / 100 < sumMax bisectSys.units := by
  refine ⟨rfl, by decide, by decide⟩

end

/-- C5 (amended): for every unit with `c2 > 0` and `fuel_cost > 0` the round
trip satisfies the exact identity
`marginal_cost(inv_marginal_cost(λ)) = λ - ε/(c2+ε) · (λ - c1·fuel_cost)`
with `ε = 1e-7` — the epsilon guard biases the round trip, so it recovers
`λ` only up to an error of relative size `ε/(c2+ε)`, which is negligible
for `c2 ≫ 1e-7` but of order `λ` when `c2` is comparable to `1e-7`. -/
theorem inv_marginal_cost_round_trip_identity (u : ThermalUnit) (lam : ℚ)
    (hc : 0 < u.c2) (hf : 0 < u.fuel_cost) :
    u.marginal_cost (u.inv_marginal_cost lam) =
      lam - (1 / 10000000) / (u.c2 + 1 / 10000000) * (lam - u.c1 * u.fuel_cost) := by
  have h1 : u.fuel_cost ≠ 0 := ne_of_gt hf
  have h2 : u.c2 + 1 / 10000000 ≠ 0 := by positivity
  unfold ThermalUnit.marginal_cost ThermalUnit.marginal_heatrate
    ThermalUnit.inv_marginal_cost
  field_simp
  ring

section

attribute [local semireducible] Rat.add Rat.mul Rat.sub Rat.inv

set_option maxRecDepth 100000

/-- C5 (counterexample to the claim as stated): `flatUnit` has `c2 = 1e-7 >
0` and `fuel_cost = 1 > 0`, and `λ = 200` lies inside
`[marginal_cost(min_power), marginal_cost(max_power)] = [0, 200]`, yet the
round trip returns `100` — an absolute error of `100`, not a floating
tolerance. -/
theorem inv_marginal_cost_round_trip_fails :
    0 < flatUnit.c2 ∧ 0 < flatUnit.fuel_cost ∧
    flatUnit.marginal_cost flatUnit.min_power ≤ 200 ∧
    200 ≤ flatUnit.marginal_cost flatUnit.max_power ∧
    flatUnit.marginal_cost (flatUnit.inv_marginal_cost 200) = 100 := by
  refine ⟨by decide, by decide, by decide, by decide, by decide⟩

/-- Witness for `inv_marginal_cost_round_trip_identity` on the §8 unit. -/
theorem inv_marginal_cost_round_trip_identity_witness :
    bisectUnit.marginal_cost (bisectUnit.inv_marginal_cost 20) =
      20 - (1 / 10000000) / (bisectUnit.c2 + 1 / 10000000) *
        (20 - bisectUnit.c1 * bisectUnit.fuel_cost) :=
  inv_marginal_cost_round_trip_identity bisectUnit 20 (by decide) (by decide)

end

/-- C8: both `power_lim` and `Z` try the `(a,b)` orientation first and fall
back to `(b,a)`; when no line exists in either orientation they return the
total fallbacks `None` and `1` respectively (no exception path exists). -/
theorem network_lookup_orientation_and_fallback (n : Network) (a b : String) :
    (arcFind n.lines (a, b) = none → arcFind n.lines (b, a) = none →
      n.power_lim a b = none ∧ n.Z a b = 1) ∧
    (∀ l, arcFind n.lines (a, b) = some l →
      n.power_lim a b = l.power_lim ∧ n.Z a b = l.Z) ∧
    (∀ l, arcFind n.lines (a, b) = none → arcFind n.lines (b, a) = some l →
      n.power_lim a b = l.power_lim ∧ n.Z a b = l.Z) := by
  refine ⟨fun h1 h2 => ?_, fun l h1 => ?_, fun l h1 h2 => ?_⟩
  · simp [Network.power_lim, Network.Z, h1, h2]
  · simp [Network.power_lim, Network.Z, h1]
  · simp [Network.power_lim, Network.Z, h1, h2]

/-- Witness for `network_lookup_orientation_and_fallback`: on the concrete
two-bus network, the pair `("x","z")` has no line in either orientation and
gets the fallbacks, while `("y","x")` is served by the `("x","y")` line. -/
theorem network_lookup_orientation_and_fallback_witness :
    (scNet.power_lim "x" "z" = none ∧ scNet.Z "x" "z" = 1) ∧
    (scNet.power_lim "y" "x" = some 5 ∧ scNet.Z "y" "x" = 2) :=
  ⟨(network_lookup_orientation_and_fallback scNet "x" "z").1 (by decide) (by decide),
   (network_lookup_orientation_and_fallback scNet "y" "x").2.2
     ⟨("x", "y"), some 5, 2⟩ (by decide) (by decide)⟩

/-- C9: the nodal flow-balance rule built for a bus that is absent from the
load mapping is exactly the rule built from the empty (all-zero-demand)
mapping: the demand term is the constant `0`. -/
theorem dc_flow_balance_absent_bus_zero_demand (network : Network)
    (loadMap : List (String × List ℚ)) (m : PyModel) (t : ℕ) (bus : String)
    (h : assocFind loadMap bus = none) :
    DCModel.eq_flow_balance_rule network loadMap m t bus =
      DCModel.eq_flow_balance_rule network [] m t bus := by
  simp [DCModel.eq_flow_balance_rule, h, assocFind]

/-- Witness for `dc_flow_balance_absent_bus_zero_demand`: bus `"x"` is
absent from the mapping `[("y", [7])]`. -/
theorem dc_flow_balance_absent_bus_zero_demand_witness :
    DCModel.eq_flow_balance_rule scNet [("y", [7])] builtDC 0 "x" =
      DCModel.eq_flow_balance_rule scNet [] builtDC 0 "x" :=
  dc_flow_balance_absent_bus_zero_demand scNet [("y", [7])] builtDC 0 "x" (by decide)

/-- The key sequence of a dict assignment: unchanged when the key is
present, appended otherwise. -/
theorem dictInsert_map_name (m : List ThermalUnit) (u : ThermalUnit) :
    (dictInsert m u).map (fun v => v.name) =
      if u.name ∈ m.map (fun v => v.name) then m.map (fun v => v.name)
      else m.map (fun v => v.name) ++ [u.name] := by
  induction m with
  | nil => simp [dictInsert]
  | cons v m ih =>
    by_cases h : v.name = u.name
    · simp [dictInsert, h]
    · have h2 : ¬ u.name = v.name := fun hx => h hx.symm
      simp only [dictInsert, h, if_false, List.map_cons, List.mem_cons, h2, false_or, ih]
      by_cases h3 : u.name ∈ m.map (fun v => v.name)
      · simp [h3]
      · simp [h3]

/-- The key sequence of the whole dict comprehension, as a fold over names. -/
theorem foldl_dictInsert_map_name (us : List ThermalUnit) :
    ∀ acc : List ThermalUnit,
      (us.foldl dictInsert acc).map (fun v => v.name) =
        (us.map (fun v => v.name)).foldl
          (fun a n => if n ∈ a then a else a ++ [n]) (acc.map (fun v => v.name)) := by
  induction us with
  | nil => intro acc; simp
  | cons u rest ih =>
    intro acc
    simp only [List.foldl_cons, List.map_cons, ih (dictInsert acc u), dictInsert_map_name]

/-- The first-occurrence fold never creates a duplicate key. -/
theorem foldl_step_nodup (ns : List String) :
    ∀ a : List String, a.Nodup →
      (ns.foldl (fun a n => if n ∈ a then a else a ++ [n]) a).Nodup := by
  induction ns with
  | nil => intro a h; exact h
  | cons n rest ih =>
    intro a h
    simp only [List.foldl_cons]
    by_cases hm : n ∈ a
    · rw [if_pos hm]; exact ih a h
    · rw [if_neg hm]
      refine ih _ ?_
      simp [List.nodup_append, h, hm]

/-- Name lookup after one dict assignment: the new value shadows precisely
its own key. -/
theorem dictInsert_find_name (m : List ThermalUnit) (u : ThermalUnit) (nm : String) :
    (dictInsert m u).find? (fun v => v.name = nm) =
      if u.name = nm then some u else m.find? (fun v => v.name = nm) := by
  induction m with
  | nil =>
    by_cases h : u.name = nm
    · simp [dictInsert, List.find?, h]
    · simp [dictInsert, List.find?, h]
  | cons v m ih =>
    by_cases h : v.name = u.name
    · simp only [dictInsert]
      rw [if_pos h]
      by_cases h2 : u.name = nm
      · simp [List.find?, h2]
      · have h3 : ¬ v.name = nm := by rw [h]; exact h2
        simp [List.find?, h2, h3]
    · simp only [dictInsert]
      rw [if_neg h]
      by_cases h2 : v.name = nm
      · have h3 : ¬ u.name = nm := fun hx => h (h2.trans hx.symm)
        simp [List.find?, h2, h3]
      · simp [List.find?, h2, ih]

/-- Name lookup over the whole dict comprehension: the result is the last
unit of the input sequence carrying the name (then the accumulator). -/
theorem foldl_dictInsert_find (us : List ThermalUnit) :
    ∀ (acc : List ThermalUnit) (nm : String),
      (us.foldl dictInsert acc).find? (fun v => v.name = nm) =
        ((us.reverse.find? (fun v => v.name = nm)).or
          (acc.find? (fun v => v.name = nm))) := by
  induction us with
  | nil => intro acc nm; simp
  | cons u rest ih =>
    intro acc nm
    simp only [List.foldl_cons, ih (dictInsert acc u) nm, dictInsert_find_name,
      List.reverse_cons, List.find?_append]
    cases hf : rest.reverse.find? (fun v => v.name = nm) with
    | none =>
      simp only [Option.none_or]
      by_cases h2 : u.name = nm
      · simp [List.find?, h2]
      · simp [List.find?, h2]
    | some w => simp

/-- C10: constructing a `System` from a unit sequence with duplicate names
raises no error; the stored dict has pairwise-distinct names, its iteration
order is the first-occurrence order of the input names, and lookup of a name
returns the *last* input unit carrying it (later silently replaces earlier). -/
theorem system_duplicate_names_replacement (us : List ThermalUnit) :
    ((System.ofUnits us).units.map (fun v => v.name)).Nodup ∧
    (System.ofUnits us).units.map (fun v => v.name) =
      firstOccurrences (us.map (fun v => v.name)) ∧
    (∀ nm : String, (System.ofUnits us).units.find? (fun v => v.name = nm) =
      us.reverse.find? (fun v => v.name = nm)) := by
  refine ⟨?_, ?_, ?_⟩
  · have h := foldl_dictInsert_map_name us []
    simp only [List.map_nil] at h
    rw [System.ofUnits]
    simp only [h]
    exact foldl_step_nodup _ [] List.nodup_nil
  · rw [System.ofUnits, firstOccurrences]
    have h := foldl_dictInsert_map_name us []
    simp only [List.map_nil] at h
    exact h
  · intro nm
    rw [System.ofUnits]
    have h := foldl_dictInsert_find us [] nm
    simp only [List.find?_nil, Option.or_none] at h
    exact h

/-- Witness for `system_duplicate_names_replacement` on the sequence
`[dupA, dupB, dupA2]` with the name `"a"` occurring twice. -/
theorem system_duplicate_names_replacement_witness :
    ((System.ofUnits [dupA, dupB, dupA2]).units.map (fun v => v.name)).Nodup ∧
    (System.ofUnits [dupA, dupB, dupA2]).units.map (fun v => v.name) =
      firstOccurrences ([dupA, dupB, dupA2].map (fun v => v.name)) ∧
    (∀ nm : String, (System.ofUnits [dupA, dupB, dupA2]).units.find?
        (fun v => v.name = nm) =
      [dupA, dupB, dupA2].reverse.find? (fun v => v.name = nm)) :=
  system_duplicate_names_replacement [dupA, dupB, dupA2]

/-- The balance builder touches only the two balance components. -/
theorem build_balance_cons_other (system : UCSystem) (load : List ℚ)
    (m : PyModel) (n : String) (h1 : ¬ n = "eq_balance_power")
    (h2 : ¬ n = "eq_balance_reserve") :
    assocFind (BaseModel.build_balance_equations system load m).cons n =
      assocFind m.cons n := by
  simp only [BaseModel.build_balance_equations]
  split
  · simp only [addCon]
    rw [assocFind_updAssoc_ne _ _ _ _ h2, assocFind_updAssoc_ne _ _ _ _ h1]
  · simp only [addCon]
    rw [assocFind_updAssoc_ne _ _ _ _ h1]

/-- The balance builder never declares a variable. -/
theorem build_balance_vars (system : UCSystem) (load : List ℚ) (m : PyModel) :
    (BaseModel.build_balance_equations system load m).vars = m.vars := by
  simp only [BaseModel.build_balance_equations]
  split
  · simp [addCon]
  · simp [addCon]

/-- The reserve builder touches only the reserve components. -/
theorem build_reserve_cons_other (system : UCSystem) (m : PyModel) (n : String)
    (h1 : ¬ n = "eq_reserve_power") (h2 : ¬ n = "eq_reserve_max_power")
    (h3 : ¬ n = "eq_reserve_ramp_up") :
    assocFind (BaseModel.build_reserve_equations system m).cons n =
      assocFind m.cons n := by
  simp only [BaseModel.build_reserve_equations]
  split
  · rfl
  · simp only [addCon, addVar]
    rw [assocFind_updAssoc_ne _ _ _ _ h3, assocFind_updAssoc_ne _ _ _ _ h3,
      assocFind_updAssoc_ne _ _ _ _ h2, assocFind_updAssoc_ne _ _ _ _ h1]

/-- With `reserve_req = 0` the reserve builder is the identity. -/
theorem build_reserve_r0 (system : UCSystem) (m : PyModel)
    (hr : system.reserve_req = 0) :
    BaseModel.build_reserve_equations system m = m := by
  simp [BaseModel.build_reserve_equations, hr]

/-- The units builder assigns exactly its seven constraint components. -/
theorem build_units_cons_other (system : UCSystem) (m : PyModel) (n : String)
    (h1 : ¬ n = "eq_startup") (h2 : ¬ n = "eq_min_uptime")
    (h3 : ¬ n = "eq_min_rest") (h4 : ¬ n = "eq_ramp_up")
    (h5 : ¬ n = "eq_ramp_down") (h6 : ¬ n = "eq_min_power")
    (h7 : ¬ n = "eq_max_power") :
    assocFind (BaseModel.build_units_equations system m).cons n =
      assocFind m.cons n := by
  simp only [BaseModel.build_units_equations, addCon, addVar]
  rw [assocFind_updAssoc_ne _ _ _ _ h7, assocFind_updAssoc_ne _ _ _ _ h6,
    assocFind_updAssoc_ne _ _ _ _ h5, assocFind_updAssoc_ne _ _ _ _ h4,
    assocFind_updAssoc_ne _ _ _ _ h3, assocFind_updAssoc_ne _ _ _ _ h2,
    assocFind_updAssoc_ne _ _ _ _ h1]

/-- The units builder declares exactly its four variable components. -/
theorem build_units_vars_other (system : UCSystem) (m : PyModel) (n : String)
    (h1 : ¬ n = "varPower") (h2 : ¬ n = "binStartUp")
    (h3 : ¬ n = "binShutDown") (h4 : ¬ n = "binIsOn") :
    assocFind (BaseModel.build_units_equations system m).vars n =
      assocFind m.vars n := by
  simp only [BaseModel.build_units_equations, addCon, addVar]
  rw [assocFind_updAssoc_ne _ _ _ _ h4, assocFind_updAssoc_ne _ _ _ _ h3,
    assocFind_updAssoc_ne _ _ _ _ h2, assocFind_updAssoc_ne _ _ _ _ h1]

/-- The startup rule depends on the model only through its period set. -/
theorem eq_startup_rule_tset (m m' : PyModel) (h : m.tset = m'.tset) :
    BaseModel.eq_startup_rule m = BaseModel.eq_startup_rule m' := by
  funext t u
  simp [BaseModel.eq_startup_rule, tFirst, h]

/-- The units builder stores the startup family built from the model it was
handed (whose period set it does not modify). -/
theorem build_units_cons_startup (system : UCSystem) (m : PyModel) :
    assocFind (BaseModel.build_units_equations system m).cons "eq_startup" =
      some (fam2 m.tset (system.units.map (fun v => v.name))
        (BaseModel.eq_startup_rule m)) := by
  simp only [BaseModel.build_units_equations, addCon, addVar]
  rw [assocFind_updAssoc_ne _ _ _ _ (by decide), assocFind_updAssoc_ne _ _ _ _ (by decide),
    assocFind_updAssoc_ne _ _ _ _ (by decide), assocFind_updAssoc_ne _ _ _ _ (by decide),
    assocFind_updAssoc_ne _ _ _ _ (by decide), assocFind_updAssoc_ne _ _ _ _ (by decide),
    assocFind_updAssoc_self]
  exact congrArg some (congrArg _ (eq_startup_rule_tset _ m rfl))

/-- Embeds `range(T).first() = 0` (also with the `headD` default at `T = 0`). -/
theorem range_headD_zero (n : ℕ) : (List.range n).headD 0 = 0 := by
  cases n with
  | zero => rfl
  | succ k => rw [List.range_succ_eq_map]; rfl

/-- Any feasible assignment of the built unit-commitment model satisfies the
startup/shutdown balance row at every period `t > 0` (the source skips the
row at `t = 0`). -/
theorem feasible_startup_eq (system : UCSystem) (load : List ℚ)
    (σ : String → Idx → ℚ) (hf : feasible σ (BaseModel.build_model system load))
    (u : String) (hu : u ∈ system.units.map (fun v => v.name))
    (t : ℕ) (ht : t ∈ List.range load.length) (ht0 : ¬ t = 0) :
    σ "binIsOn" [.nat t, .str u] - σ "binIsOn" [.nat (t - 1), .str u] =
      σ "binStartUp" [.nat t, .str u] - σ "binShutDown" [.nat t, .str u] := by
  have hlook : assocFind (BaseModel.build_model system load).cons "eq_startup" =
      some (fam2 (List.range load.length) (system.units.map (fun v => v.name))
        (BaseModel.eq_startup_rule { emptyModel with tset := List.range load.length })) := by
    simp only [BaseModel.build_model]
    rw [build_balance_cons_other _ _ _ _ (by decide) (by decide),
      build_reserve_cons_other _ _ _ (by decide) (by decide) (by decide),
      build_units_cons_startup]
  have hmem := assocFind_mem _ _ _ hlook
  have h0 : tFirst { emptyModel with tset := List.range load.length } = 0 := by
    show (List.range load.length).headD 0 = 0
    exact range_headD_zero _
  have hrule : BaseModel.eq_startup_rule
      { emptyModel with tset := List.range load.length } t u =
      some (.ceq
        (.sub (.evar "binIsOn" [.nat t, .str u]) (.evar "binIsOn" [.nat (t - 1), .str u]))
        (.sub (.evar "binStartUp" [.nat t, .str u]) (.evar "binShutDown" [.nat t, .str u]))) := by
    simp [BaseModel.eq_startup_rule, h0, ht0]
  have hc := hf.2 _ hmem _ (mem_fam2 _ _ _ t u _ ht hu hrule)
  simpa [Cstr.holds, LinExpr.eval] using hc

/-- C4 (amended): for every feasible assignment of the built model and every
unit, the telescoping identity holds for the sums *from `t = 1` on*:
`Σ_{t≥1} startup[t,u] - Σ_{t≥1} shutdown[t,u] = on[T-1,u] - on[0,u]`.
(The `t = 0` terms are untied because the balance row is skipped there.) -/
theorem startup_shutdown_telescoping_from_t1 (system : UCSystem)
    (load : List ℚ) (σ : String → Idx → ℚ) (u : ThermalUnit) (T : ℕ)
    (hf : feasible σ (BaseModel.build_model system load))
    (hu : u ∈ system.units) (hT : load.length = T) (h1 : 1 ≤ T) :
    ∑ t ∈ Finset.Icc 1 (T - 1),
        (σ "binStartUp" [.nat t, .str u.name] -
          σ "binShutDown" [.nat t, .str u.name]) =
      σ "binIsOn" [.nat (T - 1), .str u.name] -
        σ "binIsOn" [.nat 0, .str u.name] := by
  have key : ∀ t : ℕ, t ∈ List.range load.length → ¬ t = 0 →
      σ "binIsOn" [.nat t, .str u.name] - σ "binIsOn" [.nat (t - 1), .str u.name] =
        σ "binStartUp" [.nat t, .str u.name] - σ "binShutDown" [.nat t, .str u.name] :=
    fun t ht ht0 => feasible_startup_eq system load σ hf u.name
      (List.mem_map_of_mem (fun v => v.name) hu) t ht ht0
  have aux : ∀ k : ℕ, k ≤ T - 1 →
      ∑ t ∈ Finset.Icc 1 k,
          (σ "binStartUp" [.nat t, .str u.name] -
            σ "binShutDown" [.nat t, .str u.name]) =
        σ "binIsOn" [.nat k, .str u.name] - σ "binIsOn" [.nat 0, .str u.name] := by
    intro k
    induction k with
    | zero => intro _; simp
    | succ n ihn =>
      intro hk
      rw [Finset.sum_Icc_succ_top (by omega)]
      rw [ihn (by omega)]
      have hkey := key (n + 1) (by rw [List.mem_range, hT]; omega) (by omega)
      have hsub : n + 1 - 1 = n := rfl
      rw [hsub] at hkey
      linarith [hkey]
  exact aux (T - 1) (le_refl _)

/-- With `reserve_req = 0` the balance builder assigns only
`eq_balance_power`. -/
theorem build_balance_cons_other_r0 (system : UCSystem) (load : List ℚ)
    (m : PyModel) (hr : system.reserve_req = 0) (n : String)
    (h1 : ¬ n = "eq_balance_power") :
    assocFind (BaseModel.build_balance_equations system load m).cons n =
      assocFind m.cons n := by
  simp only [BaseModel.build_balance_equations, hr]
  rw [if_neg (by norm_num)]
  simp only [addCon]
  rw [assocFind_updAssoc_ne _ _ _ _ h1]

/-- With reserve disabled the built model has no reserve variable and none
of the five reserve constraint components. -/
theorem build_model_r0_no_reserve (system : UCSystem) (load : List ℚ)
    (hr : system.reserve_req = 0) :
    assocFind (BaseModel.build_model system load).vars "varReserve" = none ∧
    ∀ n ∈ reserveFamilyNames,
      assocFind (BaseModel.build_model system load).cons n = none := by
  constructor
  · simp only [BaseModel.build_model]
    rw [build_balance_vars, build_reserve_r0 _ _ hr,
      build_units_vars_other _ _ _ (by decide) (by decide) (by decide) (by decide)]
    rfl
  · intro n hn
    simp only [reserveFamilyNames, List.mem_cons, List.not_mem_nil, or_false] at hn
    simp only [BaseModel.build_model]
    rw [build_reserve_r0 _ _ hr]
    rcases hn with rfl | rfl | rfl | rfl | rfl
    all_goals {
      rw [build_balance_cons_other_r0 _ _ _ hr _ (by decide),
        build_units_cons_other _ _ _ (by decide) (by decide) (by decide)
          (by decide) (by decide) (by decide) (by decide)]
      rfl
    }

section

attribute [local semireducible] Rat.add Rat.mul Rat.sub Rat.inv

set_option maxRecDepth 100000

/-- C2: with `reserve_req = 0` no reserve variable and no reserve constraint
component exists in any built model (general statement).  With
`reserve_req = 0.1` on the concrete ramp-limited system, `varReserve` and
only *four* of the five reserve families of §4.4 exist: the source assigns
the ramp-down family to the attribute name `eq_reserve_ramp_up` (under a
`# Reserve ramp down` comment), replacing the just-built ramp-up family, so
`eq_reserve_ramp_down` never exists and the surviving `eq_reserve_ramp_up`
component holds the `t+1`/`binShutDown`-based ramp-down-shaped constraint. -/
theorem reserve_disabled_and_families_overwritten :
    (assocFind builtNoRes.vars "varReserve" = none ∧
      (reserveFamilyNames.filter
        (fun n => (assocFind builtNoRes.cons n).isSome)).length = 0) ∧
    ((assocFind builtRes.vars "varReserve").isSome = true ∧
      (reserveFamilyNames.filter
        (fun n => (assocFind builtRes.cons n).isSome)).length = 4 ∧
      assocFind builtRes.cons "eq_reserve_ramp_down" = none ∧
      assocFind builtRes.cons "eq_reserve_ramp_up" =
        some [.le (.evar "varReserve" [.nat 0, .str "g"])
          (.add (.smul 2 (.evar "binShutDown" [.nat 1, .str "g"]))
            (.smul 2 (.sub (.evar "binIsOn" [.nat 0, .str "g"])
              (.evar "binShutDown" [.nat 1, .str "g"]))))]) := by
  refine ⟨⟨by decide, by decide⟩, by decide, by decide, by decide, by decide⟩

/-- C3: on the concrete two-bus network the DC build succeeds and its model
contains no variable named `varFlowC` (the DC formulation has only angle
variables), so the security build — which executes
`m.varFlowC[t, c, c].fix(0)` after indexing `varAngleC` with the
contingency `Set` object itself — fails instead of fixing any
post-contingency flow to zero. -/
theorem scdc_flow_fix_references_missing_variable :
    (DCModel.build_model scNet scLoad).isSome = true ∧
    assocFind builtDC.vars "varFlowC" = none ∧
    (assocFind builtDC.vars "varAngle").isSome = true ∧
    SCDCModel.build_security_constraints scNet scLoad none builtDC = none ∧
    SCDCModel.build_model scNet scLoad none = none := by
  refine ⟨by decide, by decide, by decide, by decide, by decide⟩

/-- C4 (counterexample to the claim as stated): `teleSigma` satisfies every
constraint of the built two-period model, yet
`Σ_t startup[t,"g"] - Σ_t shutdown[t,"g"] = 1` while
`on[T-1,"g"] - on[0,"g"] = 0`, because `startup[0,"g"] = 1` is untied (the
balance row is skipped at `t = 0`). -/
theorem startup_telescoping_fails_at_t0 :
    feasible teleSigma teleModel ∧
    teleModel = BaseModel.build_model teleSys [0, 0] ∧
    (∑ t ∈ Finset.range 2, teleSigma "binStartUp" [.nat t, .str "g"]) -
      (∑ t ∈ Finset.range 2, teleSigma "binShutDown" [.nat t, .str "g"]) = 1 ∧
    teleSigma "binIsOn" [.nat 1, .str "g"] -
      teleSigma "binIsOn" [.nat 0, .str "g"] = 0 ∧
    (1 : ℚ) ≠ 0 := by
  refine ⟨by decide, rfl, ?_, ?_, by norm_num⟩
  · rw [Finset.sum_range_succ, Finset.sum_range_succ, Finset.sum_range_zero,
      Finset.sum_range_succ, Finset.sum_range_succ, Finset.sum_range_zero]
    norm_num [teleSigma]
    decide
  · norm_num [teleSigma]
    decide

/-- Witness for `startup_shutdown_telescoping_from_t1` on the concrete
feasible assignment. -/
theorem startup_shutdown_telescoping_from_t1_witness :
    ∑ t ∈ Finset.Icc 1 (2 - 1),
        (teleSigma "binStartUp" [.nat t, .str "g"] -
          teleSigma "binShutDown" [.nat t, .str "g"]) =
      teleSigma "binIsOn" [.nat (2 - 1), .str "g"] -
        teleSigma "binIsOn" [.nat 0, .str "g"] :=
  startup_shutdown_telescoping_from_t1 teleSys [0, 0] teleSigma teleUnit 2
    (by decide) (by decide) (by decide) (by decide)

end
